import Mathlib

/-!
Verification of the Stock-Price-Prediction repository.

Shallow embedding of `utils/data_utils.py` (class `StockDataFetcher`) and
`utils/prediction_models.py` (class `StockPredictionModels`).

Modelling conventions:
* Python floats are embedded as exact rationals (`ℚ`); the claims under
  verification concern recurrences, guards, shapes and control flow, none of
  which depend on floating-point rounding.
* Python exceptions are embedded as `Except String`; a function that can raise
  returns `.error msg` on the raising path (the message text is a label, not a
  byte-exact reproduction of the Python message).
* External-library numerics that this repository merely calls (the fitted keras
  network, the fitted sklearn random forest, numpy's Mersenne-Twister sampling,
  the real exponential) are abstracted as fixed total computable functions;
  every claim under verification depends only on guard placement, result shape,
  lengths, determinism and the recurrences written in this repository's own
  code, never on those libraries' numeric outputs.  Each such stand-in is
  marked at its definition.
-/

/-- Decidable equality for `Except`, so that concrete runs of the embedded
fallible functions can be checked by `decide`. -/
instance {ε α : Type} [DecidableEq ε] [DecidableEq α] : DecidableEq (Except ε α) :=
  fun a b =>
  match a, b with
  | .error e1, .error e2 =>
    if h : e1 = e2 then isTrue (congrArg Except.error h)
    else isFalse (fun hc => h (Except.error.inj hc))
  | .error _, .ok _ => isFalse (fun hc => Except.noConfusion hc)
  | .ok _, .error _ => isFalse (fun hc => Except.noConfusion hc)
  | .ok a1, .ok a2 =>
    if h : a1 = a2 then isTrue (congrArg Except.ok h)
    else isFalse (fun hc => h (Except.ok.inj hc))

namespace StockPrediction

/-! ## Embedding of `utils/data_utils.py`, class `StockDataFetcher` -/

/-- State of the process-global numpy pseudo-random generator
(`np.random`).  The generator itself is external-library code; it is
abstracted as a deterministic state machine on a 32-bit state. -/
structure NumpyRNG where
  state : Nat
deriving DecidableEq

/-- Deterministic stand-in for one step of the global numpy generator
(a linear congruential update on 32 bits). -/
def lcgNext (s : Nat) : Nat := (1664525 * s + 1013904223) % 2 ^ 32

/-- Model of `np.random.seed(n)`: the global state is replaced by the seed. -/
def npSeed (n : Nat) : NumpyRNG := ⟨n % 2 ^ 32⟩

/-- Model of CPython's built-in `hash` on strings: salted per process but
stable within one process; a fixed concrete function models one process. -/
def pyHash (s : String) : Nat :=
  s.foldl (fun h c => (h * 31 + c.toNat) % 2 ^ 64) 7

/-- A value in `[0, 1]` extracted deterministically from the generator state. -/
def unitFrac (s : Nat) : ℚ := ((s % 1001 : Nat) : ℚ) / 1000

/-- Stand-in for one draw of `np.random.normal(mu, sigma)`:
a deterministic value together with the successor state. -/
def normalDraw (mu sigma : ℚ) (s : Nat) : ℚ × Nat :=
  (mu + sigma * (2 * unitFrac s - 1), lcgNext s)

/-- Stand-in for one draw of `np.random.uniform(a, b)`. -/
def uniformDraw (a b : ℚ) (s : Nat) : ℚ × Nat :=
  (a + (b - a) * unitFrac s, lcgNext s)

/-- Stand-in for one draw of `np.random.randint(lo, hi)`. -/
def randintDraw (lo hi : Nat) (s : Nat) : Nat × Nat :=
  (lo + s % (hi - lo), lcgNext s)

/-- Draw `n` values in sequence, threading the generator state, as a numpy
vectorised sampling call `np.random.xxx(..., n)` does. -/
def drawList {α : Type} (step : Nat → α × Nat) : Nat → Nat → List α × Nat
  | 0, s => ([], s)
  | n + 1, s =>
    ((step s).1 :: (drawList step n (step s).2).1, (drawList step n (step s).2).2)

/-- Running sums with accumulator, the recursion behind `np.cumsum`. -/
def cumsumFrom (acc : ℚ) : List ℚ → List ℚ
  | [] => []
  | x :: xs => (acc + x) :: cumsumFrom (acc + x) xs

/-- Model of `np.cumsum`. -/
def cumsum (l : List ℚ) : List ℚ := cumsumFrom 0 l

/-- Computable stand-in for the real exponential `np.exp` used by the demo
generator; no claim under verification depends on its values, only on the
length and determinism of the generated series. -/
def expModel (x : ℚ) : ℚ := 1 + x + x ^ 2 / 2

/-- The per-symbol base-price lookup table of `generate_demo_data`
(default 100 for unknown symbols). -/
def basePrice (symbol : String) : ℚ :=
  if symbol = "AAPL" then 150 else if symbol = "GOOGL" then 140
  else if symbol = "MSFT" then 380 else if symbol = "AMZN" then 170
  else if symbol = "TSLA" then 240 else if symbol = "META" then 300
  else if symbol = "NFLX" then 450 else if symbol = "NVDA" then 875
  else if symbol = "AMD" then 140 else if symbol = "INTC" then 35 else 100

/-- One row of the generated pandas DataFrame.  Dates are embedded as integer
offsets from "today" (`pd.date_range(end=now, periods=days, freq='D')`
produces consecutive calendar days ending today). -/
structure DemoRow where
  date : Int
  openPrice : ℚ
  high : ℚ
  low : ℚ
  close : ℚ
  volume : Nat
  adjClose : ℚ
deriving DecidableEq

/-- Embedding of `StockDataFetcher.generate_demo_data(symbol, days)`.

The incoming global generator state `_rng` is deliberately unused: the source
calls `np.random.seed(hash(symbol) % 2**32)` first, which replaces the global
state ("Consistent data per symbol").  The draws then happen in source order:
daily returns (normal, mean 0.0005, stdev 0.02), then the Open/High/Low
uniform offsets, then the Volume integers.  Prices are the random walk
`base_price * exp(cumsum(returns))`. -/
def generate_demo_data (symbol : String) (days : Nat) (_rng : NumpyRNG) :
    List DemoRow × NumpyRNG :=
  let s0 := (npSeed (pyHash symbol % 2 ^ 32)).state
  let d1 := drawList (normalDraw (5 / 10000) (2 / 100)) days s0
  let prices := (cumsum d1.1).map (fun c => basePrice symbol * expModel c)
  let d2 := drawList (uniformDraw (-1 / 100) (1 / 100)) days d1.2
  let d3 := drawList (uniformDraw (1 / 100) (3 / 100)) days d2.2
  let d4 := drawList (uniformDraw (-3 / 100) (-1 / 100)) days d3.2
  let d5 := drawList (randintDraw 50000000 100000000) days d4.2
  let rows := (List.range days).map (fun (i : Nat) =>
    ({ date := (i : Int) + 1 - (days : Int),
       openPrice := prices.getD i 0 * (1 + d2.1.getD i 0),
       high := prices.getD i 0 * (1 + d3.1.getD i 0),
       low := prices.getD i 0 * (1 + d4.1.getD i 0),
       close := prices.getD i 0,
       volume := d5.1.getD i 0,
       adjClose := prices.getD i 0 } : DemoRow))
  (rows, ⟨d5.2⟩)

/-- One download attempt of `yf.download(...)`, abstracted as an oracle
indexed by the attempt number: an exception (`.error`), or a DataFrame,
possibly empty (`.ok []`).  Any client satisfying this contract is
substitutable for the real Yahoo-Finance client. -/
abbrev DownloadOracle := Nat → Except String (List DemoRow)

/-- Attempt `a` yields no usable data: either the download raised or the
returned frame was empty (`data is None / data.empty / len(data) == 0`). -/
def noData (oracle : DownloadOracle) (a : Nat) : Prop :=
  match oracle a with
  | .ok rows => rows = []
  | .error _ => True

/-- The retry loop of `fetch_stock_data`: starting at attempt `a` with `rem`
attempts remaining, return the first non-empty successful download (`some`)
or `none` after exhausting the attempts, together with the list of back-off
waits (in seconds) slept between attempts.  A failed attempt that is not the
last one sleeps `(attempt + 1) * 5` seconds (`wait_time = (attempt + 1) * 5`);
the final attempt is not followed by a wait. -/
def fetchLoop (oracle : DownloadOracle) : Nat → Nat → Option (List DemoRow) × List Nat
  | _, 0 => (none, [])
  | a, rem + 1 =>
    match oracle a with
    | .ok rows =>
      if rows.isEmpty then
        if rem = 0 then (none, [])
        else
          ((fetchLoop oracle (a + 1) rem).1,
           (a + 1) * 5 :: (fetchLoop oracle (a + 1) rem).2)
      else (some rows, [])
    | .error _ =>
      if rem = 0 then (none, [])
      else
        ((fetchLoop oracle (a + 1) rem).1,
         (a + 1) * 5 :: (fetchLoop oracle (a + 1) rem).2)

/-- Result of `fetch_stock_data`: the returned frame, the sequence of back-off
waits that were slept, and the global generator state afterwards. -/
structure FetchOut where
  rows : List DemoRow
  waits : List Nat
  rngOut : NumpyRNG
deriving DecidableEq

/-- Embedding of `StockDataFetcher.fetch_stock_data(symbol, days, retries)`.

Per-attempt download exceptions are consumed by the in-loop `except` clause
(modelled inside `fetchLoop`); if no attempt produces a non-empty frame the
function falls back to `generate_demo_data`.  The outer `try/except` of the
source catches any remaining exception and also falls back to
`generate_demo_data`; since the fallback itself is total here (`days` is a
natural number, so `pd.date_range` cannot be handed a negative count), no
`.error` path remains.  The result type keeps the `Except` wrapper so that
"never raises" is a statement about the function, not about its type being
artificially total. -/
def fetch_stock_data (oracle : DownloadOracle) (symbol : String)
    (days retries : Nat) (rng : NumpyRNG) : Except String FetchOut :=
  match fetchLoop oracle 0 retries with
  | (some rows, ws) => .ok ⟨rows, ws, rng⟩
  | (none, ws) =>
    .ok ⟨(generate_demo_data symbol days rng).1, ws,
         (generate_demo_data symbol days rng).2⟩

/-- A download client whose every attempt raises (an unreachable source). -/
def failOracle : DownloadOracle := fun _ => .error "network unreachable"

/-- A download client whose every attempt returns an empty frame
(a rate-limited source that answers with no rows). -/
def emptyOracle : DownloadOracle := fun _ => .ok []

/-! ## Embedding of `utils/prediction_models.py`, class `StockPredictionModels` -/

/-- Float absolute value, used by the metric computations. -/
def absQ (x : ℚ) : ℚ := if x < 0 then -x else x

/-- A model's `(future_predictions, rmse, mae)` result.  The middle component
carries the mean-squared error; the source reports its square root (RMSE).
The square root is strictly monotone on nonnegatives and no claim under
verification depends on the metric's numeric value, so the embedding keeps
the exactly representable square. -/
abbrev ModelTriple := List ℚ × ℚ × ℚ

/-- `(None, None, None)` (absent) versus a full triple. -/
abbrev ModelResult := Option ModelTriple

/-- Fitting `MinMaxScaler(feature_range=(0, 1))` on a series: raises on an
empty input (sklearn's `check_array` demands at least one sample); otherwise
yields the data minimum and the scale divisor, where a constant column's zero
range is replaced by 1 (sklearn's `_handle_zeros_in_scale`). -/
def fit_minmax (data : List ℚ) : Except String (ℚ × ℚ) :=
  match data with
  | [] => .error "ValueError: Found array with 0 sample(s)"
  | x :: xs =>
    let mn := xs.foldl min x
    let mx := xs.foldl max x
    .ok (mn, if mx = mn then 1 else mx - mn)

/-- `scaler.transform`: map `x` to `(x - min) / range`. -/
def minmaxTransform (mn d : ℚ) (l : List ℚ) : List ℚ :=
  l.map (fun x => (x - mn) / d)

/-- `scaler.inverse_transform` on a single value. -/
def minmaxInverse (mn d : ℚ) (x : ℚ) : ℚ := x * d + mn

/-- The sliding-window loop
`for i in range(lookback, len(data)): X.append(data[i-lookback:i]); y.append(data[i])`
shared by `prepare_data` and the inline windowing of `predict_random_forest`.
Window `j` (for `i = lookback + j`) is the slice `data[j : j+lookback]` and
its target is `data[lookback + j]`. -/
def rawWindows (data : List ℚ) (lookback : Nat) : List (List ℚ) × List ℚ :=
  ((List.range (data.length - lookback)).map (fun j => (data.drop j).take lookback),
   (List.range (data.length - lookback)).map (fun j => data.getD (lookback + j) 0))

/-- Embedding of `prepare_data(data, lookback)`: min-max scale the whole
series (`self.scaler.fit_transform`), then build the sliding windows. -/
def prepare_data (data : List ℚ) (lookback : Nat) :
    Except String (List (List ℚ) × List ℚ) :=
  match fit_minmax data with
  | .error e => .error e
  | .ok (mn, d) => .ok (rawWindows (minmaxTransform mn d data) lookback)

/-- Python `int(n * 0.8)`, the chronological 80/20 split index.  Truncation
toward zero of `n * 0.8` coincides with `4 * n / 5` in natural division for
every series length arising here. -/
def splitIdx (n : Nat) : Nat := 4 * n / 5

/-- Model of `mean_squared_error(yTrue, yPred)`. -/
def mean_squared_error_q (yTrue yPred : List ℚ) : ℚ :=
  let ps := yTrue.zip yPred
  if ps.length = 0 then 0
  else (ps.map (fun p => (p.1 - p.2) ^ 2)).sum / (ps.length : ℚ)

/-- Model of `mean_absolute_error(yTrue, yPred)`. -/
def mean_absolute_error_q (yTrue yPred : List ℚ) : ℚ :=
  let ps := yTrue.zip yPred
  if ps.length = 0 then 0
  else (ps.map (fun p => absQ (p.1 - p.2))).sum / (ps.length : ℚ)

/-- Stand-in for the fitted recurrent network's one-step output
(`model.predict` after `build_lstm_model` and `fit`): keras training is
external-library code, abstracted as a fixed total function of the input
window.  No claim under verification depends on this value. -/
def trainedNetOutput (window : List ℚ) : ℚ :=
  if window.length = 0 then 0 else window.sum / (window.length : ℚ)

/-- Stand-in for the fitted `RandomForestRegressor`'s output on one window
(external-library code; see `trainedNetOutput`). -/
def trainedForestOutput (window : List ℚ) : ℚ :=
  if window.length = 0 then 0 else window.sum / (window.length : ℚ)

/-- The recursive future rollout of `predict_lstm`: predict the next scaled
value from the last 60 scaled values, record its inverse-scaled value, feed
the scaled prediction back (`np.append(last_sequence[1:], next_pred)`). -/
def lstmRollout (mn d : ℚ) : List ℚ → Nat → List ℚ
  | _, 0 => []
  | seq, h + 1 =>
    minmaxInverse mn d (trainedNetOutput seq) ::
      lstmRollout mn d (seq.drop 1 ++ [trainedNetOutput seq]) h

/-- Embedding of `predict_lstm(data, days_to_predict)`: scaled windows with
lookback 60, an insufficient-data guard at fewer than 10 windows, an 80/20
chronological split, metrics on the inverse-scaled held-out tail, and the
recursive future rollout from the last window `X[-1]`. -/
def predict_lstm (data : List ℚ) (days_to_predict : Nat) :
    Except String ModelResult :=
  match prepare_data data 60 with
  | .error e => .error e
  | .ok Xy =>
    if Xy.1.length < 10 then .ok none
    else
      match fit_minmax data with
      | .error e => .error e
      | .ok md =>
        let si := splitIdx Xy.1.length
        let testPredict := (Xy.1.drop si).map
          (fun w => minmaxInverse md.1 md.2 (trainedNetOutput w))
        let yTestActual := (Xy.2.drop si).map (minmaxInverse md.1 md.2)
        let mseVal := mean_squared_error_q yTestActual testPredict
        let maeVal := mean_absolute_error_q yTestActual testPredict
        .ok (some (lstmRollout md.1 md.2 (Xy.1.getLastD []) days_to_predict,
                   mseVal, maeVal))

/-- Ordinary least squares `y = b0 + b1 * x` as `LinearRegression().fit`
computes it; for a single training point (`sxx = 0`) sklearn's least-norm
`lstsq` solution is slope 0 through the point's mean. -/
def olsFit (xs ys : List ℚ) : ℚ × ℚ :=
  if xs.length = 0 then (0, 0)
  else
    let xbar := xs.sum / (xs.length : ℚ)
    let ybar := ys.sum / (ys.length : ℚ)
    let sxx := (xs.map (fun x => (x - xbar) ^ 2)).sum
    let sxy := ((xs.zip ys).map (fun p => (p.1 - xbar) * (p.2 - ybar))).sum
    if sxx = 0 then (ybar, 0) else (ybar - sxy / sxx * xbar, sxy / sxx)

/-- Embedding of `predict_linear_regression(data, days_to_predict)`: the day
index `0..len-1` is the sole feature; fit on the first 80% (raising, as
`LinearRegression().fit` does, when that training slice is empty, i.e. when
`len(data) <= 1`), evaluate on the rest, extrapolate the fitted line over the
next `days_to_predict` day indices. -/
def predict_linear_regression (data : List ℚ) (days_to_predict : Nat) :
    Except String ModelResult :=
  if splitIdx data.length = 0 then .error "ValueError: fit with 0 samples"
  else
    let n := data.length
    let si := splitIdx n
    let xtrain := (List.range si).map (fun (i : Nat) => (i : ℚ))
    let ytrain := data.take si
    let xtest := (List.range (n - si)).map (fun (i : Nat) => ((si + i : Nat) : ℚ))
    let ytest := data.drop si
    let b := olsFit xtrain ytrain
    let ypred := xtest.map (fun x => b.1 + b.2 * x)
    let mseVal := mean_squared_error_q ytest ypred
    let maeVal := mean_absolute_error_q ytest ypred
    let future := (List.range days_to_predict).map
      (fun (i : Nat) => b.1 + b.2 * ((n + i : Nat) : ℚ))
    .ok (some (future, mseVal, maeVal))

/-- The recursive future rollout of `predict_random_forest` on raw prices. -/
def forestRollout : List ℚ → Nat → List ℚ
  | _, 0 => []
  | seq, h + 1 =>
    trainedForestOutput seq :: forestRollout (seq.drop 1 ++ [trainedForestOutput seq]) h

/-- Embedding of `predict_random_forest(data, days_to_predict)`: inline
unscaled windows with lookback 10, an insufficient-data guard at fewer than
10 windows, an 80/20 chronological split, metrics on the held-out tail, and
the recursive rollout from the last 10 prices `data[-lookback:]`. -/
def predict_random_forest (data : List ℚ) (days_to_predict : Nat) :
    Except String ModelResult :=
  let lookback := 10
  let Xy := rawWindows data lookback
  if Xy.1.length < 10 then .ok none
  else
    let si := splitIdx Xy.1.length
    let ypred := (Xy.1.drop si).map trainedForestOutput
    let mseVal := mean_squared_error_q (Xy.2.drop si) ypred
    let maeVal := mean_absolute_error_q (Xy.2.drop si) ypred
    let future := forestRollout (data.drop (data.length - lookback)) days_to_predict
    .ok (some (future, mseVal, maeVal))

/-- The exponential-smoothing loop of `predict_arima_simple`
(`result.append(alpha * data[i] + (1 - alpha) * result[i-1])` with
`alpha = 0.3`), given the previous smoothed value. -/
def smoothList (s : ℚ) : List ℚ → List ℚ
  | [] => []
  | x :: xs =>
    (3 / 10 * x + 7 / 10 * s) :: smoothList (3 / 10 * x + 7 / 10 * s) xs

/-- The future-projection loop of `predict_arima_simple`:
`next_pred = alpha * data[-1] + (1 - alpha) * last_value; last_value = next_pred`,
with the last observed price `lastActual` held fixed across all steps. -/
def arimaFutures (lastActual : ℚ) : ℚ → Nat → List ℚ
  | _, 0 => []
  | lastVal, h + 1 =>
    (3 / 10 * lastActual + 7 / 10 * lastVal) ::
      arimaFutures lastActual (3 / 10 * lastActual + 7 / 10 * lastVal) h

/-- Embedding of `predict_arima_simple(data, days_to_predict)`: raises on the
empty series (`result = [data[0]]` indexes into it unconditionally); otherwise
builds the smoothed series, compares its tail 20% against the true tail
(`y_pred[:len(y_test)]`), and projects the future by blending the fixed last
observed price into the decaying smoothed value. -/
def predict_arima_simple (data : List ℚ) (days_to_predict : Nat) :
    Except String ModelResult :=
  match data with
  | [] => .error "IndexError: list index out of range"
  | d0 :: rest =>
    let result := d0 :: smoothList d0 rest
    let si := splitIdx (d0 :: rest).length
    let ytest := (d0 :: rest).drop si
    let ypred := (result.drop si).take ytest.length
    let mseVal := mean_squared_error_q ytest ypred
    let maeVal := mean_absolute_error_q ytest ypred
    let future := arimaFutures ((d0 :: rest).getLastD 0) (result.getLastD 0) days_to_predict
    .ok (some (future, mseVal, maeVal))

/-- The result mapping of `predict_all_models`, one entry per model key. -/
structure ModelBundle where
  lstm : ModelResult
  linear : ModelResult
  random_forest : ModelResult
  arima : ModelResult
deriving DecidableEq

/-- Embedding of `predict_all_models(data, days_to_predict)`: the dict
literal evaluates the four model calls in source order (`lstm`, `linear`,
`random_forest`, `arima`); there is no `try/except` around any of them, so an
exception raised by one call propagates and the later calls never run. -/
def predict_all_models (data : List ℚ) (days_to_predict : Nat) :
    Except String ModelBundle :=
  match predict_lstm data days_to_predict with
  | .error e => .error e
  | .ok l =>
    match predict_linear_regression data days_to_predict with
    | .error e => .error e
    | .ok lin =>
      match predict_random_forest data days_to_predict with
      | .error e => .error e
      | .ok rf =>
        match predict_arima_simple data days_to_predict with
        | .error e => .error e
        | .ok ar => .ok ⟨l, lin, rf, ar⟩

/-- The future-predictions component of a model call, when one was produced. -/
def predictionsOf : Except String ModelResult → Option (List ℚ)
  | .ok (some (p, _, _)) => some p
  | _ => none

/-! ## Specification-side definitions (from the spec's words, for refinement
claims; compared against the source-derived functions above) -/

/-- The spec's smoothed series as an indexed recurrence:
`s[0] = price[0]`, `s[i] = 0.3 * price[i] + 0.7 * s[i-1]`. -/
def specSmoothed (data : List ℚ) : Nat → ℚ
  | 0 => data.getD 0 0
  | i + 1 => 3 / 10 * data.getD (i + 1) 0 + 7 / 10 * specSmoothed data i

/-- The spec's future projection as an indexed recurrence: step `k` applies
`next = 0.3 * last_actual + 0.7 * previous` with the last actual price held
fixed, starting from the last smoothed value. -/
def specFuture (lastActual lastSmoothed : ℚ) : Nat → ℚ
  | 0 => 3 / 10 * lastActual + 7 / 10 * lastSmoothed
  | k + 1 => 3 / 10 * lastActual + 7 / 10 * specFuture lastActual lastSmoothed k

/-! ## Helper lemmas -/

/-- Reading index `j` of a table built over `List.range`. -/
lemma getD_map_range {α : Type} (f : Nat → α) (n j : Nat) (d : α) (hj : j < n) :
    ((List.range n).map f).getD j d = f j := by
  rw [List.getD_eq_getElem?_getD, List.getElem?_map, List.getElem?_range hj]
  rfl

lemma rawWindows_fst_length (data : List ℚ) (lb : Nat) :
    (rawWindows data lb).1.length = data.length - lb := by
  simp [rawWindows]

lemma rawWindows_snd_length (data : List ℚ) (lb : Nat) :
    (rawWindows data lb).2.length = data.length - lb := by
  simp [rawWindows]

lemma minmaxTransform_length (mn d : ℚ) (l : List ℚ) :
    (minmaxTransform mn d l).length = l.length := by
  simp [minmaxTransform]

/-- On a non-empty series the scaler fits, and `prepare_data` windows the
scaled series. -/
lemma prepare_data_of_ne_nil (data : List ℚ) (lb : Nat) (h : data ≠ []) :
    ∃ mn d, fit_minmax data = .ok (mn, d) ∧
      prepare_data data lb = .ok (rawWindows (minmaxTransform mn d data) lb) := by
  cases data with
  | nil => exact absurd rfl h
  | cons d0 xs => exact ⟨_, _, rfl, rfl⟩

/-! ## Claims about the prediction models -/

/-- C3, counterexample: on the empty series `prepare_data` raises inside
`scaler.fit_transform` (sklearn demands at least one sample) instead of
returning empty window/target sequences as the claim requires for
`lookback >= len(series)`. -/
theorem prepare_data_empty_series_errors :
    prepare_data ([] : List ℚ) 60 = .error "ValueError: Found array with 0 sample(s)"
      ∧ ∀ r, prepare_data ([] : List ℚ) 60 ≠ .ok r := by
  constructor
  · rfl
  · intro r hr
    exact Except.noConfusion (hr.symm.trans rfl)

/-- C3 (amended): the windowing loop shared by `prepare_data` and
`predict_random_forest` produces exactly `len(series) - lookback`
window/target pairs in chronological order (window `j` is the slice starting
at `j`, its target the value at `lookback + j`), and empty sequences when
`lookback >= len(series)`; `prepare_data` behaves the same way on the
min-max-scaled series for every NON-EMPTY series (on the empty series it
raises inside the scaler, see the counterexample). -/
theorem windowing_count_and_order (data : List ℚ) (lookback : Nat) :
    ((rawWindows data lookback).1.length = data.length - lookback
      ∧ (rawWindows data lookback).2.length = data.length - lookback
      ∧ (∀ j, j < data.length - lookback →
          (rawWindows data lookback).1.getD j [] = (data.drop j).take lookback
            ∧ (rawWindows data lookback).2.getD j 0 = data.getD (lookback + j) 0)
      ∧ (data.length ≤ lookback → rawWindows data lookback = ([], [])))
    ∧ (data ≠ [] → (prepare_data data lookback).isOk = true)
    ∧ (∀ mn d, fit_minmax data = .ok (mn, d) →
        prepare_data data lookback
            = .ok (rawWindows (minmaxTransform mn d data) lookback)
          ∧ (rawWindows (minmaxTransform mn d data) lookback).1.length
              = data.length - lookback
          ∧ (rawWindows (minmaxTransform mn d data) lookback).2.length
              = data.length - lookback) := by
  refine ⟨⟨rawWindows_fst_length data lookback, rawWindows_snd_length data lookback,
      fun j hj => ⟨getD_map_range _ _ _ _ hj, getD_map_range _ _ _ _ hj⟩, fun hle => ?_⟩,
    fun hne => ?_, fun mn d hfit => ?_⟩
  · simp [rawWindows, Nat.sub_eq_zero_of_le hle]
  · obtain ⟨mn, d, _, hprep⟩ := prepare_data_of_ne_nil data lookback hne
    rw [hprep]
    rfl
  · refine ⟨?_, ?_, ?_⟩
    · unfold prepare_data
      rw [hfit]
    · rw [rawWindows_fst_length, minmaxTransform_length]
    · rw [rawWindows_snd_length, minmaxTransform_length]

/-- C3, witness at the series `[1, 2, 3]` with lookback 2. -/
theorem windowing_count_and_order_witness :
    (rawWindows [(1 : ℚ), 2, 3] 2).1.length = [(1 : ℚ), 2, 3].length - 2
    ∧ (rawWindows [(1 : ℚ), 2, 3] 2).1.getD 0 [] = ([(1 : ℚ), 2, 3].drop 0).take 2
    ∧ prepare_data [(1 : ℚ), 2, 3] 2
        = .ok (rawWindows (minmaxTransform 1 2 [(1 : ℚ), 2, 3]) 2) :=
  ⟨(windowing_count_and_order [1, 2, 3] 2).1.1,
   ((windowing_count_and_order [1, 2, 3] 2).1.2.2.1 0 (by decide)).1,
   ((windowing_count_and_order [1, 2, 3] 2).2.2 1 2 (by norm_num [fit_minmax])).1⟩

/-- C8, counterexample: the empty series yields 0 windows (fewer than 10),
yet `predict_lstm` raises inside the scaler instead of returning the absent
result. -/
theorem predict_lstm_empty_series_errors :
    predict_lstm ([] : List ℚ) 1 = .error "ValueError: Found array with 0 sample(s)"
      ∧ predict_lstm ([] : List ℚ) 1 ≠ .ok none := by
  exact ⟨rfl, fun h => Except.noConfusion (h.symm.trans rfl)⟩

/-- C8 (amended): whenever the series yields fewer than 10 windows,
`predict_random_forest` (lookback 10) returns the absent result, and so does
`predict_lstm` (lookback 60) provided the series is non-empty — on the empty
series the LSTM path raises inside the scaler before reaching its guard (see
the counterexample). -/
theorem insufficient_windows_absent (data : List ℚ) (horizon : Nat) :
    (data ≠ [] → data.length - 60 < 10 → predict_lstm data horizon = .ok none)
    ∧ (data.length - 10 < 10 → predict_random_forest data horizon = .ok none) := by
  constructor
  · intro hne hlt
    obtain ⟨mn, d, _, hprep⟩ := prepare_data_of_ne_nil data 60 hne
    unfold predict_lstm
    rw [hprep]
    have hX : (rawWindows (minmaxTransform mn d data) 60).1.length
        = data.length - 60 := by
      rw [rawWindows_fst_length, minmaxTransform_length]
    simp only [hX, hlt, if_pos]
  · intro hlt
    unfold predict_random_forest
    have hX : (rawWindows data 10).1.length = data.length - 10 :=
      rawWindows_fst_length data 10
    simp only [hX, hlt, if_pos]

/-- C8, witness at the series `[1, 2, 3]` (0 windows for both lookbacks). -/
theorem insufficient_windows_absent_witness :
    predict_lstm [(1 : ℚ), 2, 3] 5 = .ok none
      ∧ predict_random_forest [(1 : ℚ), 2, 3] 5 = .ok none :=
  ⟨(insufficient_windows_absent [1, 2, 3] 5).1 (by decide) (by decide),
   (insufficient_windows_absent [1, 2, 3] 5).2 (by decide)⟩

/-- C10: `predict_arima_simple` and `predict_linear_regression` never return
the absent result: each either raises or returns a full triple.  In
particular `predict_arima_simple` raises exactly on the empty series (it
reads `data[0]` unconditionally) and `predict_linear_regression` raises
exactly when its 80% training slice is empty, i.e. when `len(data) <= 1`. -/
theorem arima_linear_no_absent_guard (data : List ℚ) (horizon : Nat) :
    predict_arima_simple data horizon ≠ .ok none
    ∧ predict_linear_regression data horizon ≠ .ok none
    ∧ (data = [] →
        predict_arima_simple data horizon = .error "IndexError: list index out of range")
    ∧ (data ≠ [] → ∃ t, predict_arima_simple data horizon = .ok (some t))
    ∧ (data.length ≤ 1 →
        predict_linear_regression data horizon = .error "ValueError: fit with 0 samples")
    ∧ (2 ≤ data.length → ∃ t, predict_linear_regression data horizon = .ok (some t)) := by
  have harima : ∀ r, predict_arima_simple data horizon = r →
      (data = [] → r = .error "IndexError: list index out of range")
      ∧ (data ≠ [] → ∃ t, r = .ok (some t)) := by
    intro r hr
    cases data with
    | nil => exact ⟨fun _ => hr.symm, fun hne => absurd rfl hne⟩
    | cons d0 rest =>
      exact ⟨fun hc => List.noConfusion hc, fun _ => ⟨_, hr.symm⟩⟩
  have hlin : (data.length ≤ 1 →
        predict_linear_regression data horizon = .error "ValueError: fit with 0 samples")
      ∧ (2 ≤ data.length → ∃ t, predict_linear_regression data horizon = .ok (some t)) := by
    constructor
    · intro hle
      have hz : splitIdx data.length = 0 := by
        unfold splitIdx
        exact Nat.div_eq_of_lt (by omega)
      unfold predict_linear_regression
      rw [if_pos hz]
    · intro h2
      have hz : ¬ splitIdx data.length = 0 := by
        unfold splitIdx
        have : 0 < 4 * data.length / 5 := Nat.div_pos (by omega) (by norm_num)
        omega
      unfold predict_linear_regression
      rw [if_neg hz]
      exact ⟨_, rfl⟩
  obtain ⟨ha1, ha2⟩ := harima _ rfl
  refine ⟨?_, ?_, ha1, ha2, hlin.1, hlin.2⟩
  · intro hc
    cases data with
    | nil => exact Except.noConfusion (hc.symm.trans rfl)
    | cons d0 rest =>
      obtain ⟨t, ht⟩ := ha2 (by intro h; exact List.noConfusion h)
      rw [ht] at hc
      exact Option.noConfusion (Except.ok.inj hc)
  · intro hc
    by_cases h1 : data.length ≤ 1
    · rw [hlin.1 h1] at hc
      exact Except.noConfusion hc
    · obtain ⟨t, ht⟩ := hlin.2 (by omega)
      rw [ht] at hc
      exact Option.noConfusion (Except.ok.inj hc)

/-- C10, witness: the empty series makes the smoother raise, and a two-point
series gets a full (never absent) linear-regression result. -/
theorem arima_linear_no_absent_guard_witness :
    predict_arima_simple ([] : List ℚ) 1 = .error "IndexError: list index out of range"
    ∧ predict_linear_regression [(1 : ℚ), 2] 1 ≠ .ok none :=
  ⟨(arima_linear_no_absent_guard [] 1).2.2.1 rfl,
   (arima_linear_no_absent_guard [1, 2] 1).2.1⟩

/-- C1, counterexample: on the one-point series `[5]` the recurrent model
has already recorded its insufficient-data absence, but the linear model's
exception (`fit` on an empty training slice) propagates out of
`predict_all_models`, so no four-key mapping is produced and the remaining
models never run. -/
theorem predict_all_models_single_point_raises :
    predict_all_models [(5 : ℚ)] 1 = .error "ValueError: fit with 0 samples"
      ∧ predict_lstm [(5 : ℚ)] 1 = .ok none :=
  ⟨rfl, rfl⟩

/-- C1 (amended): when no model raises, `predict_all_models` returns the
mapping holding all four models' results, so an insufficient-data ABSENCE in
one model (an `.ok none` entry) never prevents the others from completing and
contributing; but an EXCEPTION in any model propagates to the caller and
aborts the whole mapping (see the counterexample). -/
theorem predict_all_models_ok_of_models_ok (data : List ℚ) (horizon : Nat)
    (r1 r2 r3 r4 : ModelResult)
    (h1 : predict_lstm data horizon = .ok r1)
    (h2 : predict_linear_regression data horizon = .ok r2)
    (h3 : predict_random_forest data horizon = .ok r3)
    (h4 : predict_arima_simple data horizon = .ok r4) :
    predict_all_models data horizon = .ok ⟨r1, r2, r3, r4⟩ := by
  unfold predict_all_models
  rw [h1, h2, h3, h4]

/-- C1, witness at the series `[1, 2]`: the recurrent and forest models
report insufficient data (absent), the linear and smoothing models report
full triples, and the mapping still carries all four keys. -/
theorem predict_all_models_ok_of_models_ok_witness :
    predict_all_models [(1 : ℚ), 2] 1
      = .ok ⟨none, some ([1], 1, 1), none, some ([151 / 100], 49 / 100, 7 / 10)⟩ :=
  predict_all_models_ok_of_models_ok [1, 2] 1 none (some ([1], 1, 1)) none
    (some ([151 / 100], 49 / 100, 7 / 10)) rfl
    (by norm_num [predict_linear_regression, splitIdx, olsFit, mean_squared_error_q,
      mean_absolute_error_q, absQ, List.range_succ])
    rfl
    (by norm_num [predict_arima_simple, smoothList, arimaFutures, splitIdx,
      mean_squared_error_q, mean_absolute_error_q, absQ, List.getLastD])

/-! ## Claims about the exponential-smoothing model -/

/-- Shifting the spec's smoothing recurrence by one input: smoothing
`d0 :: x :: xs` from position `i + 1` equals smoothing `s1 :: xs` from
position `i`, where `s1 = 0.3 * x + 0.7 * d0` is the first smoothed value. -/
lemma specSmoothed_shift (x d0 : ℚ) (xs : List ℚ) (i : Nat) :
    specSmoothed (d0 :: x :: xs) (i + 1)
      = specSmoothed ((3 / 10 * x + 7 / 10 * d0) :: xs) i := by
  induction i with
  | zero => simp [specSmoothed]
  | succ i ih =>
    show 3 / 10 * (d0 :: x :: xs).getD (i + 2) 0
          + 7 / 10 * specSmoothed (d0 :: x :: xs) (i + 1)
        = 3 / 10 * ((3 / 10 * x + 7 / 10 * d0) :: xs).getD (i + 1) 0
          + 7 / 10 * specSmoothed ((3 / 10 * x + 7 / 10 * d0) :: xs) i
    rw [ih]
    simp [List.getD_cons_succ]

/-- The source's smoothing loop agrees with the spec's indexed recurrence at
every position of the series. -/
lemma smoothList_getD_spec (d0 : ℚ) (rest : List ℚ) :
    ∀ i, i < (d0 :: rest).length →
      (d0 :: smoothList d0 rest).getD i 0 = specSmoothed (d0 :: rest) i := by
  induction rest generalizing d0 with
  | nil =>
    intro i hi
    cases i with
    | zero => rfl
    | succ i => simp at hi
  | cons x xs ih =>
    intro i hi
    cases i with
    | zero => rfl
    | succ i =>
      have hstep : (d0 :: smoothList d0 (x :: xs)).getD (i + 1) 0
          = ((3 / 10 * x + 7 / 10 * d0)
              :: smoothList (3 / 10 * x + 7 / 10 * d0) xs).getD i 0 := by
        simp [smoothList, List.getD_cons_succ]
      rw [hstep, ih _ i (by simpa using Nat.lt_of_succ_lt_succ hi)]
      exact (specSmoothed_shift x d0 xs i).symm

/-- Shifting the spec's future recurrence by one step: the `k + 1`-st
projection from `s` is the `k`-th projection from the first projected value. -/
lemma specFuture_shift (a s : ℚ) (k : Nat) :
    specFuture a s (k + 1) = specFuture a (3 / 10 * a + 7 / 10 * s) k := by
  induction k with
  | zero => rfl
  | succ k ih =>
    show 3 / 10 * a + 7 / 10 * specFuture a s (k + 1)
        = 3 / 10 * a + 7 / 10 * specFuture a (3 / 10 * a + 7 / 10 * s) k
    rw [ih]

/-- The source's future-projection loop agrees with the spec's indexed
recurrence, step by step. -/
lemma arimaFutures_eq_map_specFuture (lastA : ℚ) :
    ∀ (h : Nat) (lastS : ℚ),
      arimaFutures lastA lastS h = (List.range h).map (specFuture lastA lastS) := by
  intro h
  induction h with
  | zero => intro lastS; rfl
  | succ h ih =>
    intro lastS
    show (3 / 10 * lastA + 7 / 10 * lastS)
          :: arimaFutures lastA (3 / 10 * lastA + 7 / 10 * lastS) h
        = (List.range (h + 1)).map (specFuture lastA lastS)
    rw [ih, List.range_succ_eq_map, List.map_cons, List.map_map]
    refine congrArg₂ _ rfl ?_
    refine List.map_congr_left ?_
    intro k _
    exact (specFuture_shift lastA lastS k).symm

/-- C4: on every non-empty series, `predict_arima_simple` computes the
smoothed series by the exact recurrence `s[0] = price[0]`,
`s[i] = 0.3 * price[i] + 0.7 * s[i-1]`, and its future predictions follow the
exact recurrence `next = 0.3 * last_actual + 0.7 * previous` with the last
actual price held fixed across all steps (starting from the last smoothed
value). -/
theorem arima_recurrence_spec (data : List ℚ) (d0 : ℚ) (rest : List ℚ)
    (hd : data = d0 :: rest) (horizon : Nat) :
    (∀ i, i < data.length →
        (d0 :: smoothList d0 rest).getD i 0 = specSmoothed data i)
    ∧ predictionsOf (predict_arima_simple data horizon)
        = some ((List.range horizon).map
            (specFuture (data.getLastD 0) ((d0 :: smoothList d0 rest).getLastD 0))) := by
  subst hd
  refine ⟨smoothList_getD_spec d0 rest, ?_⟩
  have hred : predictionsOf (predict_arima_simple (d0 :: rest) horizon)
      = some (arimaFutures ((d0 :: rest).getLastD 0)
          ((d0 :: smoothList d0 rest).getLastD 0) horizon) := rfl
  rw [hred, arimaFutures_eq_map_specFuture]

/-- C4, witness on the series `[1, 2]`. -/
theorem arima_recurrence_spec_witness :
    ((1 : ℚ) :: smoothList 1 [2]).getD 1 0 = specSmoothed [(1 : ℚ), 2] 1
    ∧ predictionsOf (predict_arima_simple [(1 : ℚ), 2] 2)
        = some ((List.range 2).map
            (specFuture ([(1 : ℚ), 2].getLastD 0)
              (((1 : ℚ) :: smoothList 1 [2]).getLastD 0))) :=
  ⟨(arima_recurrence_spec [1, 2] 1 [2] rfl 2).1 1 (by decide),
   (arima_recurrence_spec [1, 2] 1 [2] rfl 2).2⟩

/-- One future step multiplies the deviation from the last actual price
by `0.7`. -/
lemma specFuture_sub_lastA (a s : ℚ) (k : Nat) :
    specFuture a s (k + 1) - a = 7 / 10 * (specFuture a s k - a) := by
  show 3 / 10 * a + 7 / 10 * specFuture a s k - a = _
  ring

/-- C5: on every non-empty series, the absolute deviation of the future
predictions of `predict_arima_simple` from the last actual price is
non-increasing in the step index — each successive prediction is at least as
close to the last observed price as the previous one. -/
theorem arima_future_deviation_antitone (data : List ℚ) (d0 : ℚ) (rest : List ℚ)
    (hd : data = d0 :: rest) (horizon k : Nat) (hk : k + 1 < horizon) (preds : List ℚ)
    (hp : predictionsOf (predict_arima_simple data horizon) = some preds) :
    |preds.getD (k + 1) 0 - data.getLastD 0| ≤ |preds.getD k 0 - data.getLastD 0| := by
  subst hd
  have hred : predictionsOf (predict_arima_simple (d0 :: rest) horizon)
      = some (arimaFutures ((d0 :: rest).getLastD 0)
          ((d0 :: smoothList d0 rest).getLastD 0) horizon) := rfl
  rw [hred] at hp
  have hpreds : preds = (List.range horizon).map
      (specFuture ((d0 :: rest).getLastD 0) ((d0 :: smoothList d0 rest).getLastD 0)) := by
    rw [← Option.some.inj hp, arimaFutures_eq_map_specFuture]
  rw [hpreds, getD_map_range _ _ _ _ hk, getD_map_range _ _ _ _ (by omega)]
  rw [specFuture_sub_lastA, abs_mul]
  have h7 : |(7 : ℚ) / 10| = 7 / 10 := by
    rw [abs_of_nonneg]
    norm_num
  rw [h7]
  exact mul_le_of_le_one_left (abs_nonneg _) (by norm_num)

/-- C5, witness: for the series `[1, 2]` with horizon 2, the second
prediction is at least as close to the last price 2 as the first. -/
theorem arima_future_deviation_antitone_witness :
    |[(151 : ℚ) / 100, 1657 / 1000].getD 1 0 - [(1 : ℚ), 2].getLastD 0|
      ≤ |[(151 : ℚ) / 100, 1657 / 1000].getD 0 0 - [(1 : ℚ), 2].getLastD 0| :=
  arima_future_deviation_antitone [1, 2] 1 [2] rfl 2 0 (by decide)
    [151 / 100, 1657 / 1000]
    (by norm_num [predict_arima_simple, smoothList, arimaFutures, splitIdx,
      mean_squared_error_q, mean_absolute_error_q, absQ, List.getLastD, predictionsOf])

/-! ## Claims about the data-acquisition layer -/

/-- When every attempt yields no data, the retry loop exhausts its budget and
sleeps `5 * attempt_number` seconds after each non-final attempt. -/
lemma fetchLoop_noData (oracle : DownloadOracle) (h : ∀ k, noData oracle k) :
    ∀ rem a, fetchLoop oracle a rem
      = (none, (List.range' (a + 1) (rem - 1)).map (· * 5)) := by
  intro rem
  induction rem with
  | zero => intro a; rfl
  | succ rem ih =>
    intro a
    have ho := h a
    unfold noData at ho
    cases e : oracle a with
    | ok rows =>
      rw [e] at ho
      simp only at ho
      subst ho
      cases rem with
      | zero => simp [fetchLoop, e]
      | succ r =>
        rw [fetchLoop, e]
        simp only [List.isEmpty_nil, if_true, Nat.succ_ne_zero, if_false, ih (a + 1)]
        simp [List.range'_succ]
    | error msg =>
      cases rem with
      | zero => simp [fetchLoop, e]
      | succ r =>
        rw [fetchLoop, e]
        simp only [Nat.succ_ne_zero, if_false, ih (a + 1)]
        simp [List.range'_succ]

/-- A frame returned by the retry loop came from a successful, non-empty
download attempt. -/
lemma fetchLoop_some_oracle (oracle : DownloadOracle) :
    ∀ rem a rows ws, fetchLoop oracle a rem = (some rows, ws) →
      ∃ k, oracle k = .ok rows ∧ rows ≠ [] := by
  intro rem
  induction rem with
  | zero =>
    intro a rows ws hc
    exact absurd hc (by simp [fetchLoop])
  | succ rem ih =>
    intro a rows ws hc
    rw [fetchLoop] at hc
    cases e : oracle a with
    | ok rows0 =>
      rw [e] at hc
      simp only at hc
      by_cases hemp : rows0.isEmpty
      · rw [if_pos hemp] at hc
        cases rem with
        | zero => exact absurd hc (by simp)
        | succ r =>
          rw [if_neg (Nat.succ_ne_zero r)] at hc
          have h1 : (fetchLoop oracle (a + 1) (r + 1)).1 = some rows :=
            congrArg Prod.fst hc
          exact ih (a + 1) rows (fetchLoop oracle (a + 1) (r + 1)).2
            (Prod.ext h1 rfl)
      · rw [if_neg hemp] at hc
        have h1 : rows0 = rows := Option.some.inj (congrArg Prod.fst hc)
        subst h1
        exact ⟨a, e, by simpa [List.isEmpty_iff] using hemp⟩
    | error msg =>
      rw [e] at hc
      simp only at hc
      cases rem with
      | zero => exact absurd hc (by simp)
      | succ r =>
        rw [if_neg (Nat.succ_ne_zero r)] at hc
        have h1 : (fetchLoop oracle (a + 1) (r + 1)).1 = some rows :=
          congrArg Prod.fst hc
        exact ih (a + 1) rows (fetchLoop oracle (a + 1) (r + 1)).2
          (Prod.ext h1 rfl)

/-- C2: `fetch_stock_data` never raises to its caller — for every download
client, symbol, day count, retry budget and generator state it returns `.ok`
with a frame that is either a real non-empty download from the external
source or the synthetic frame of the fallback generator. -/
theorem fetch_stock_data_total_and_sourced (oracle : DownloadOracle) (symbol : String)
    (days retries : Nat) (rng : NumpyRNG) :
    ∃ out : FetchOut, fetch_stock_data oracle symbol days retries rng = .ok out
      ∧ ((∃ a, oracle a = .ok out.rows ∧ out.rows ≠ [])
          ∨ out.rows = (generate_demo_data symbol days rng).1) := by
  unfold fetch_stock_data
  cases hl : fetchLoop oracle 0 retries with
  | mk fst ws =>
    cases fst with
    | some rows =>
      exact ⟨⟨rows, ws, rng⟩, rfl,
        .inl (fetchLoop_some_oracle oracle retries 0 rows ws hl)⟩
    | none =>
      exact ⟨⟨(generate_demo_data symbol days rng).1, ws,
        (generate_demo_data symbol days rng).2⟩, rfl, .inr rfl⟩

/-- C6: the synthetic fallback is deterministic within a process — any two
calls of the data-acquisition path that both fall back (every attempt of
each client yields no data) return identical frames for the same symbol and
day count, regardless of retry budgets and of the incoming state of the
process-global generator, because `generate_demo_data` re-seeds that
generator from the stable hash of the symbol on each call. -/
theorem demo_fallback_deterministic (oracle1 oracle2 : DownloadOracle) (symbol : String)
    (days r1 r2 : Nat) (rng1 rng2 : NumpyRNG)
    (h1 : ∀ a, noData oracle1 a) (h2 : ∀ a, noData oracle2 a) :
    (fetch_stock_data oracle1 symbol days r1 rng1).map FetchOut.rows
      = (fetch_stock_data oracle2 symbol days r2 rng2).map FetchOut.rows := by
  unfold fetch_stock_data
  rw [fetchLoop_noData oracle1 h1 r1 0, fetchLoop_noData oracle2 h2 r2 0]
  rfl

/-- C6, witness: a raising client (two attempts) and an empty-answering
client (three attempts), different incoming generator states, same symbol
and day count — identical frames. -/
theorem demo_fallback_deterministic_witness :
    (fetch_stock_data failOracle "TSLA" 2 2 ⟨5⟩).map FetchOut.rows
      = (fetch_stock_data emptyOracle "TSLA" 2 3 ⟨77⟩).map FetchOut.rows :=
  demo_fallback_deterministic failOracle emptyOracle "TSLA" 2 2 3 ⟨5⟩ ⟨77⟩
    (fun _ => trivial) (fun _ => rfl)

/-- C7, counterexample: with `days = 0` the generator returns an empty frame
(`pd.date_range(..., periods=0)` is empty), so the claimed non-emptiness
fails for that `days` value while the exactly-`days`-rows part still holds. -/
theorem generate_demo_data_zero_days_empty :
    (generate_demo_data "AAPL" 0 ⟨0⟩).1 = []
      ∧ ((generate_demo_data "AAPL" 0 ⟨0⟩).1).length = 0 :=
  ⟨rfl, rfl⟩

/-- C7 (amended): for every symbol and every `days >= 1` (on `days = 0` the
frame is empty, see the counterexample), `generate_demo_data` returns a
non-empty frame with exactly `days` rows whose dates are strictly ascending. -/
theorem generate_demo_data_shape (symbol : String) (days : Nat) (rng : NumpyRNG)
    (h : 1 ≤ days) :
    ((generate_demo_data symbol days rng).1).length = days
    ∧ (generate_demo_data symbol days rng).1 ≠ []
    ∧ (((generate_demo_data symbol days rng).1).map DemoRow.date).Pairwise (· < ·) := by
  have hlen : ((generate_demo_data symbol days rng).1).length = days := by
    simp [generate_demo_data]
  refine ⟨hlen, ?_, ?_⟩
  · rw [← List.length_pos, hlen]
    omega
  · have hdates : ((generate_demo_data symbol days rng).1).map DemoRow.date
        = (List.range days).map (fun (i : Nat) => (i : Int) + 1 - (days : Int)) := by
      simp [generate_demo_data, List.map_map, Function.comp]
    rw [hdates]
    exact List.Pairwise.map _ (fun a b hab => by omega) (List.pairwise_lt_range days)

/-- C7, witness at `days = 3`. -/
theorem generate_demo_data_shape_witness :
    ((generate_demo_data "AAPL" 3 ⟨0⟩).1).length = 3
    ∧ (generate_demo_data "AAPL" 3 ⟨0⟩).1 ≠ []
    ∧ (((generate_demo_data "AAPL" 3 ⟨0⟩).1).map DemoRow.date).Pairwise (· < ·) :=
  generate_demo_data_shape "AAPL" 3 ⟨0⟩ (by decide)

/-- Twice the sum of `1 + 2 + ... + k`. -/
lemma range'_one_sum (k : Nat) : (List.range' 1 k).sum * 2 = k * (k + 1) := by
  induction k with
  | zero => rfl
  | succ k ih =>
    rw [List.range'_1_concat, List.sum_append, List.sum_cons, List.sum_nil, add_mul, ih]
    ring

/-- Summing a wait schedule scales the underlying attempt numbers by 5. -/
lemma sum_map_mul_five (l : List Nat) : (l.map (· * 5)).sum = l.sum * 5 := by
  induction l with
  | nil => rfl
  | cons x xs ih => simp [ih, add_mul]

/-- The wait schedule is monotonically non-decreasing. -/
lemma waits_pairwise (n : Nat) : ((List.range' 1 n).map (· * 5)).Pairwise (· ≤ ·) :=
  List.Pairwise.map _ (fun a b hab => by omega) (List.pairwise_lt_range' 1 n 1)

/-- C9, counterexample: with three retries and a client that always fails,
the waits actually slept are 5 s and 10 s — there is no 15 s wait after the
third (final) attempt, contrary to the claim's "15s after the third for
three retries". -/
theorem fetch_waits_three_retries :
    (fetch_stock_data failOracle "AAPL" 2 3 ⟨0⟩).map FetchOut.waits = .ok [5, 10]
      ∧ (fetch_stock_data failOracle "AAPL" 2 3 ⟨0⟩).map FetchOut.waits
          ≠ .ok [5, 10, 15] := by
  have h : (fetch_stock_data failOracle "AAPL" 2 3 ⟨0⟩).map FetchOut.waits
      = .ok [5, 10] := rfl
  refine ⟨h, ?_⟩
  rw [h]
  intro hc
  exact absurd (Except.ok.inj hc) (by decide)

/-- C9 (amended): when every attempt fails, the waits slept between the
attempts are exactly `5 * attempt_number` seconds for each non-final attempt
(no wait follows the final attempt, so three retries sleep 5 s then 10 s);
the schedule is monotonically non-decreasing and its total is the bounded
value `5 * (retries - 1) * retries / 2`. -/
theorem fetch_backoff_schedule (oracle : DownloadOracle) (symbol : String)
    (days retries : Nat) (rng : NumpyRNG) (h : ∀ a, noData oracle a) :
    (fetch_stock_data oracle symbol days retries rng).map FetchOut.waits
        = .ok ((List.range' 1 (retries - 1)).map (· * 5))
    ∧ ((List.range' 1 (retries - 1)).map (· * 5)).Pairwise (· ≤ ·)
    ∧ ((List.range' 1 (retries - 1)).map (· * 5)).sum * 2 = (retries - 1) * retries * 5 := by
  refine ⟨?_, waits_pairwise _, ?_⟩
  · unfold fetch_stock_data
    rw [fetchLoop_noData oracle h retries 0]
    rfl
  · rw [sum_map_mul_five]
    cases retries with
    | zero => simp
    | succ r =>
      have h2 := range'_one_sum r
      simp only [Nat.succ_sub_one]
      calc (List.range' 1 r).sum * 5 * 2
          = (List.range' 1 r).sum * 2 * 5 := by ring
        _ = r * (r + 1) * 5 := by rw [h2]

/-- C9, witness: four retries against a raising client sleep 5 s, 10 s, 15 s. -/
theorem fetch_backoff_schedule_witness :
    (fetch_stock_data failOracle "MSFT" 5 4 ⟨1⟩).map FetchOut.waits
        = .ok ((List.range' 1 (4 - 1)).map (· * 5))
    ∧ ((List.range' 1 (4 - 1)).map (· * 5)).Pairwise (· ≤ ·)
    ∧ ((List.range' 1 (4 - 1)).map (· * 5)).sum * 2 = (4 - 1) * 4 * 5 :=
  fetch_backoff_schedule failOracle "MSFT" 5 4 ⟨1⟩ (fun _ => trivial)

end StockPrediction
